import Mathlib

/-!
# Verification of `daily_briefing.py`

A shallow embedding of the daily-briefing pipeline: three source adapters
(papers, trending models, lab news), a JSON-file history store, the
dedup/aggregation step, the Discord digest formatter, and the `main`
orchestrator.  External behaviour (HTTP responses, feed contents, the
history file, the implementation-defined iteration order of Python sets)
is passed in explicitly; Python exceptions are modelled with `Except`.
-/

namespace DailyBriefing

instance {ε α : Type} [DecidableEq ε] [DecidableEq α] : DecidableEq (Except ε α) := fun x y =>
  match x, y with
  | .error e, .error e' =>
    if h : e = e' then isTrue (by rw [h]) else isFalse (fun hh => by cases hh; exact h rfl)
  | .ok a, .ok b =>
    if h : a = b then isTrue (by rw [h]) else isFalse (fun hh => by cases hh; exact h rfl)
  | .error _, .ok _ => isFalse (fun hh => by cases hh)
  | .ok _, .error _ => isFalse (fun hh => by cases hh)

/-- Python exceptions that the embedded code can raise. -/
inductive PyError where
  | netError
  | jsonDecodeError
  | keyError (k : String)
deriving DecidableEq

/-- The `type` tag of an item: one of `"Paper"`, `"Model"`, `"News"`. -/
inductive ItemType where
  | Paper
  | Model
  | News
deriving DecidableEq

/-- The normalized item dict built by the adapters.  All adapters populate
`id`, `title`, `link` and `type`; only the models adapter adds a `likes`
key (`none` models an absent key). -/
structure Item where
  id : String
  title : String
  link : String
  type : ItemType
  likes : Option Nat
deriving DecidableEq

/-! ## Papers adapter (`get_huggingface_daily_papers`, lines 14-39) -/

/-- The inner `"paper"` object of one record of the daily-papers JSON;
`none` fields model missing keys (Python `KeyError` on access). -/
structure PaperFields where
  id : Option String
  title : Option String
deriving DecidableEq

/-- One record of the daily-papers JSON array. -/
structure PaperRecord where
  paper : Option PaperFields
deriving DecidableEq

/-- Behaviour of `requests.get` + `.json()` for the papers endpoint:
the request may raise, or return a status code together with a body that
either decodes to a JSON array (`some data`) or makes `.json()` raise
(`none`). -/
inductive PapersFetch where
  | raiseErr
  | resp (status : Nat) (body : Option (List PaperRecord))
deriving DecidableEq

/-- Key lookups `paper["paper"]`, `["id"]`, `["title"]`: builds one item, raising
`KeyError` when a key is missing. -/
def paperItem (r : PaperRecord) : Except PyError Item :=
  match r.paper with
  | none => .error (.keyError "paper")
  | some p =>
    match p.id with
    | none => .error (.keyError "id")
    | some pid =>
      match p.title with
      | none => .error (.keyError "title")
      | some ptitle =>
        .ok { id := pid, title := ptitle,
              link := "https://huggingface.co/papers/" ++ pid,
              type := ItemType.Paper, likes := none }

/-- The `for paper in data[:5]` loop body: appends items in order, aborting
with the exception of the first failing record. -/
def papersFromData : List PaperRecord → Except PyError (List Item)
  | [] => .ok []
  | r :: rs => do
    let i ← paperItem r
    let tl ← papersFromData rs
    .ok (i :: tl)

/-- Embeds `get_huggingface_daily_papers` (lines 14-39): the whole body is inside
`try/except`, so every failure path returns `[]`. -/
def get_huggingface_daily_papers (f : PapersFetch) : List Item :=
  match f with
  | .raiseErr => []
  | .resp status body =>
    if status ≠ 200 then []
    else
      match body with
      | none => []
      | some data =>
        match papersFromData (data.take 5) with
        | .ok papers => papers
        | .error _ => []

/-! ## Models adapter (`get_trending_models`, lines 41-65) -/

/-- One record returned by `api.list_models`.  `lastModified` is an aware
datetime or `None`; times are modelled as integer seconds. -/
structure ModelInfo where
  modelId : String
  lastModified : Option Int
  likes : Nat
deriving DecidableEq

/-- Behaviour of the `api.list_models` call: it is not wrapped in any
`try/except`, so a network failure raises out of the adapter. -/
inductive ModelsFetch where
  | raiseErr
  | ok (ms : List ModelInfo)
deriving DecidableEq

/-- Python `timedelta.days`: floor division of the elapsed seconds by 86400
(Python floor-divides toward negative infinity). -/
def timedeltaDays (seconds : Int) : Int :=
  Int.fdiv seconds 86400

/-- Line 55: `m.lastModified and (datetime.now().astimezone() - m.lastModified).days < 2`.
A falsy (`None`) `lastModified` short-circuits to exclusion. -/
def modelIsRecent (now : Int) (m : ModelInfo) : Bool :=
  match m.lastModified with
  | none => false
  | some t => timedeltaDays (now - t) < 2

/-- The item dict built for one kept model (lines 56-62). -/
def modelItem (m : ModelInfo) : Item :=
  { id := m.modelId, title := m.modelId,
    link := "https://huggingface.co/" ++ m.modelId,
    type := ItemType.Model, likes := some m.likes }

/-- The accumulation loop of `get_trending_models` (lines 52-63): append a
matching model, break as soon as five are accumulated. -/
def collectModels (now : Int) : List ModelInfo → List Item → List Item
  | [], acc => acc
  | m :: ms, acc =>
    if modelIsRecent now m then
      let acc2 := acc ++ [modelItem m]
      if 5 ≤ acc2.length then acc2 else collectModels now ms acc2
    else
      collectModels now ms acc

/-- Embeds `get_trending_models` (lines 41-65): no `try/except` around the fetch,
so a raising `list_models` call propagates past the adapter boundary. -/
def get_trending_models (now : Int) : ModelsFetch → Except PyError (List Item)
  | .raiseErr => .error .netError
  | .ok ms => .ok (collectModels now ms [])

/-! ## News adapter (`get_lab_news`, lines 67-94) -/

/-- One feed entry; `none` fields model attributes whose access raises
(caught by the per-feed `except`). `published_parsed` is modelled as the
timestamp in seconds that `datetime(*entry.published_parsed[:6])` yields. -/
structure FeedEntry where
  title : Option String
  link : Option String
  published_parsed : Option Int
deriving DecidableEq

/-- Behaviour of `feedparser.parse` for one feed: raise, or produce a list
of entries. -/
inductive FeedFetch where
  | raiseErr
  | parsed (entries : List FeedEntry)
deriving DecidableEq

/-- The per-feed `try` body (lines 78-93): inspect only `entries[0]`; any
exception (missing attribute, parse error) skips the feed. -/
def feedNews (now : Int) (source : String) (f : FeedFetch) : List Item :=
  match f with
  | .raiseErr => []
  | .parsed entries =>
    match entries with
    | [] => []
    | e :: _ =>
      match e.published_parsed with
      | none => []
      | some published =>
        if timedeltaDays (now - published) < 1 then
          match e.link, e.title with
          | some elink, some etitle =>
            [{ id := elink, title := source ++ ": " ++ etitle,
               link := elink, type := ItemType.News, likes := none }]
          | _, _ => []
        else []

/-- Embeds `get_lab_news` (lines 67-94): iterate the fixed feed list, each feed
contributing at most one item, errors skipped per feed. -/
def get_lab_news (now : Int) (feeds : List (String × FeedFetch)) : List Item :=
  feeds.flatMap (fun sf => feedNews now sf.1 sf.2)

/-! ## History store (`load_history` / `save_history`, lines 98-108) -/

/-- The state of `seen_ids.json`: absent, present but undecodable
(`json.load` raises), or decodable to an array of strings. -/
inductive HistFile where
  | missing
  | malformed
  | wellFormed (ids : List String)
deriving DecidableEq

/-- Embeds `load_history` (lines 98-102): missing file yields the empty set;
`set(json.load(f))` on a well-formed array; a decode failure raises,
uncaught. -/
def load_history : HistFile → Except PyError (Finset String)
  | .missing => .ok ∅
  | .malformed => .error .jsonDecodeError
  | .wellFormed ids => .ok ids.toFinset

/-- Python `l[-n:]`: the last `n` elements of `l` (all of `l` when it is
shorter than `n`). -/
def pyTail (n : Nat) (l : List String) : List String :=
  l.drop (l.length - n)

/-- Embeds `save_history` (lines 104-108):
`list(old_history.union(new_ids))[-1000:]`.  The set-to-list conversion
order is implementation-defined in Python, so it is passed in as `enum`. -/
def save_history (enum : Finset String → List String)
    (new_ids old_history : Finset String) : List String :=
  pyTail 1000 (enum (old_history ∪ new_ids))

/-- A possible behaviour of Python's set-to-list conversion: any
duplicate-free enumeration of exactly the set's elements. -/
def ValidEnum (enum : Finset String → List String) : Prop :=
  ∀ s : Finset String, (enum s).Nodup ∧ ∀ a, a ∈ enum s ↔ a ∈ s

/-- One concrete valid enumeration: sorted order, via insertion sort so
that it evaluates by kernel reduction. -/
def sortEnum (s : Finset String) : List String :=
  Quot.liftOn s.val (fun l => l.insertionSort (fun a b => a ≤ b))
    (fun l1 l2 h => List.eq_of_perm_of_sorted
      (((l1.perm_insertionSort (fun a b => a ≤ b)).trans h).trans
        (l2.perm_insertionSort (fun a b => a ≤ b)).symm)
      (List.sorted_insertionSort (fun a b => a ≤ b) l1)
      (List.sorted_insertionSort (fun a b => a ≤ b) l2))

/-! ## Digest formatter (`send_discord_digest`, lines 110-145) -/

/-- One entry of the embed `fields` array. -/
structure EmbedField where
  name : String
  value : String
  inline : Bool
deriving DecidableEq

/-- The embed payload POSTed to the webhook. -/
structure Payload where
  title : String
  description : String
  color : Nat
  fields : List EmbedField
  footer : String
deriving DecidableEq

/-- Line 122: the bullet rendered for one news item. -/
def newsLine (n : Item) : String :=
  "• **[" ++ n.title ++ "](" ++ n.link ++ ")**"

/-- Line 127: the bullet rendered for one model item (adapter-produced
model items always carry a `likes` key). -/
def modelLine (m : Item) : String :=
  "• **[" ++ m.title ++ "](" ++ m.link ++ ")** (⭐ " ++ toString (m.likes.getD 0) ++ ")"

/-- Line 131: the bullet rendered for one paper item. -/
def paperLine (p : Item) : String :=
  "• **[" ++ p.title ++ "](" ++ p.link ++ ")**"

/-- Lines 113-132: partition the items by type and build one embed field
per non-empty bucket, News first, then Models, then Papers. -/
def buildFields (items : List Item) : List EmbedField :=
  let papers := items.filter (fun i => i.type == ItemType.Paper)
  let models := items.filter (fun i => i.type == ItemType.Model)
  let news := items.filter (fun i => i.type == ItemType.News)
  (if !news.isEmpty then
    [{ name := "📢 Industry News",
       value := String.intercalate "\n" (news.map newsLine), inline := false }]
   else []) ++
  (if !models.isEmpty then
    [{ name := "🚀 Trending Models",
       value := String.intercalate "\n" (models.map modelLine), inline := false }]
   else []) ++
  (if !papers.isEmpty then
    [{ name := "📚 Daily Papers",
       value := String.intercalate "\n" (papers.map paperLine), inline := false }]
   else [])

/-- Embeds `send_discord_digest` (lines 110-145): `none` when no POST happens
(empty input), otherwise the payload that is POSTed.  `dateStr` stands for
`datetime.now().strftime('%b %d')`. -/
def send_discord_digest (dateStr : String) (items : List Item) : Option Payload :=
  if items.isEmpty then none
  else
    some { title := "Daily AI Briefing • " ++ dateStr,
           description := "Here are the top trending updates for today.",
           color := 3447003,
           fields := buildFields items,
           footer := "Sources: Hugging Face & Corporate Blogs" }

/-! ## Orchestrator (`main`, lines 147-168) -/

/-- The external world one run executes against: configuration, the
history file, the behaviour of each outbound fetch, the wall clock, and
the set-iteration order the Python runtime happens to use. -/
structure World where
  webhook : Option String
  histFile : HistFile
  papersFetch : PapersFetch
  modelsFetch : ModelsFetch
  feeds : List (String × FeedFetch)
  now : Int
  dateStr : String
  enum : Finset String → List String

/-- The observable effects of one completed run. -/
structure RunResult where
  printed : List String
  historyRead : Bool
  fetched : Bool
  newItems : List Item
  posted : Option Payload
  written : Option (List String)
deriving DecidableEq

/-- The run that aborts on a falsy webhook URL (lines 148-150): one
diagnostic line, nothing else touched. -/
def abortRun : RunResult :=
  { printed := ["No Webhook URL found."], historyRead := false, fetched := false,
    newItems := [], posted := none, written := none }

/-- Line 155: `get_huggingface_daily_papers() + get_trending_models() + get_lab_news()`.
The models call can raise, aborting before the news fetch, as in Python's
left-to-right evaluation. -/
def fetchCandidates (w : World) : Except PyError (List Item) := do
  let papers := get_huggingface_daily_papers w.papersFetch
  let models ← get_trending_models w.now w.modelsFetch
  let news := get_lab_news w.now w.feeds
  .ok (papers ++ models ++ news)

/-- Lines 158-168: filter the candidates against history, then either
publish-and-save or report nothing new. -/
def runWith (w : World) (history : Finset String) (candidates : List Item) : RunResult :=
  let new_items := candidates.filter (fun i => decide (i.id ∉ history))
  if new_items.isEmpty then
    { printed := ["No new items to report."], historyRead := true, fetched := true,
      newItems := new_items, posted := none, written := none }
  else
    { printed := ["Found " ++ toString new_items.length ++ " new items. Sending digest..."],
      historyRead := true, fetched := true, newItems := new_items,
      posted := send_discord_digest w.dateStr new_items,
      written := some (save_history w.enum ((new_items.map Item.id).toFinset) history) }

/-- Line 148: `if not WEBHOOK_URL` — `None` and the empty string are falsy. -/
def webhookMissing : Option String → Bool
  | none => true
  | some s => s.isEmpty

/-- Embeds `main` (lines 147-168). -/
def main (w : World) : Except PyError RunResult :=
  if webhookMissing w.webhook then .ok abortRun
  else do
    let history ← load_history w.histFile
    let candidates ← fetchCandidates w
    .ok (runWith w history candidates)

/-- The history file after a run: rewritten when the run saved, untouched
otherwise (also untouched when the run raised). -/
def nextHistFile (old : HistFile) : Option (List String) → HistFile
  | some l => .wellFormed l
  | none => old

/-- The world seen by an immediately following run with identical adapter
outputs and no external mutation of the history file. -/
def nextWorld (w : World) : World :=
  match main w with
  | .ok r => { w with histFile := nextHistFile w.histFile r.written }
  | .error _ => w

/-! ## Spec-side definition for the type-partitioning property

The spec states the digest as: one section per non-empty type bucket, in
the fixed order News, Models, Papers, each section holding exactly the
items of its type in their original relative order.  `specSections` is
written from those words, to be compared with `buildFields`. -/

/-- One optional section: omitted entirely when its bucket is empty. -/
def sectionIfNonempty (name : String) (line : Item → String)
    (bucket : List Item) : List EmbedField :=
  if bucket.isEmpty then []
  else [{ name := name, value := String.intercalate "\n" (bucket.map line), inline := false }]

/-- The digest sections as the spec describes them. -/
def specSections (items : List Item) : List EmbedField :=
  sectionIfNonempty "📢 Industry News" newsLine
      (items.filter (fun i => i.type == ItemType.News))
  ++ sectionIfNonempty "🚀 Trending Models" modelLine
      (items.filter (fun i => i.type == ItemType.Model))
  ++ sectionIfNonempty "📚 Daily Papers" paperLine
      (items.filter (fun i => i.type == ItemType.Paper))

/-! ## Concrete scenario worlds used to instantiate the theorems -/

/-- A world whose webhook configuration is absent. -/
def absentWebhookWorld : World :=
  { webhook := none, histFile := .missing, papersFetch := .raiseErr,
    modelsFetch := .raiseErr, feeds := [], now := 0, dateStr := "", enum := sortEnum }

/-- A small healthy world: history `{"a"}`, papers adapter returning the
seen item `a` and the fresh item `b`. -/
def smallWorld : World :=
  { webhook := some "u", histFile := .wellFormed ["a"],
    papersFetch := .resp 200 (some [⟨some ⟨some "a", some "A"⟩⟩, ⟨some ⟨some "b", some "B"⟩⟩]),
    modelsFetch := .ok [], feeds := [], now := 0, dateStr := "Jan 01", enum := sortEnum }

/-- A world in which every candidate id is already in history. -/
def seenOnlyWorld : World :=
  { webhook := some "u", histFile := .wellFormed ["a"],
    papersFetch := .resp 200 (some [⟨some ⟨some "a", some "A"⟩⟩]),
    modelsFetch := .ok [], feeds := [], now := 0, dateStr := "Jan 01", enum := sortEnum }

/-- A popularity-sorted candidate list: one recent model, one with a
missing timestamp. -/
def witnessModels : List ModelInfo :=
  [⟨"a", some 0, 10⟩, ⟨"b", none, 5⟩]

/-! ## Concrete instance where the 1000-entry truncation breaks dedup -/

/-- 1000 pairwise distinct history ids. -/
def cexIds : List String :=
  (List.range 1000).map (fun k => String.mk (List.replicate (k + 2) 'a'))

/-- The single fresh candidate of the scenario. -/
def cexItem : Item :=
  { id := "x", title := "T", link := "https://huggingface.co/papers/x",
    type := ItemType.Paper, likes := none }

/-- A legitimate set-enumeration order (duplicate-free, right elements)
that happens to list `"x"` first, so the `[-1000:]` truncation evicts it. -/
def cexEnum (s : Finset String) : List String :=
  if "x" ∈ s then "x" :: sortEnum (s.erase "x") else sortEnum s

/-- The world of the dedup counterexample: 1000 ids already in history and
one fresh paper `"x"`. -/
def cexWorld : World :=
  { webhook := some "u", histFile := .wellFormed cexIds,
    papersFetch := .resp 200 (some [⟨some ⟨some "x", some "T"⟩⟩]),
    modelsFetch := .ok [], feeds := [], now := 0, dateStr := "Jan 01", enum := cexEnum }

/-! ## Helper lemmas -/

theorem ok_bind {α β : Type} (a : α) (f : α → Except PyError β) :
    (Except.ok a >>= f : Except PyError β) = f a := rfl

theorem error_bind {α β : Type} (e : PyError) (f : α → Except PyError β) :
    (Except.error e >>= f : Except PyError β) = Except.error e := rfl

theorem collectModels_eq (now : Int) (ms : List ModelInfo) :
    ∀ acc : List Item, acc.length < 5 →
      collectModels now ms acc
        = acc ++ ((ms.filter (modelIsRecent now)).take (5 - acc.length)).map modelItem := by
  induction ms with
  | nil => intro acc _; simp [collectModels]
  | cons m ms ih =>
    intro acc hacc
    simp only [collectModels]
    by_cases hk : modelIsRecent now m
    · rw [if_pos hk]
      by_cases h5 : 5 ≤ (acc ++ [modelItem m]).length
      · rw [if_pos h5]
        have hone : 5 - acc.length = 1 := by
          simp only [List.length_append, List.length_cons, List.length_nil] at h5
          omega
        rw [List.filter_cons_of_pos hk, hone]
        simp
      · rw [if_neg h5]
        have hlt : (acc ++ [modelItem m]).length < 5 := by omega
        rw [ih _ hlt, List.filter_cons_of_pos hk]
        have hsucc : 5 - acc.length = (5 - (acc ++ [modelItem m]).length) + 1 := by
          simp only [List.length_append, List.length_cons, List.length_nil]
          simp only [List.length_append, List.length_cons, List.length_nil] at h5
          omega
        rw [hsucc, List.take_succ_cons]
        simp
    · rw [if_neg hk, ih _ hacc, List.filter_cons_of_neg hk]

theorem paperItem_type (r : PaperRecord) (i : Item) (h : paperItem r = .ok i) :
    i.type = ItemType.Paper := by
  obtain ⟨p⟩ := r
  cases p with
  | none => simp [paperItem] at h
  | some pf =>
    obtain ⟨pid, ptitle⟩ := pf
    cases pid with
    | none => simp [paperItem] at h
    | some x =>
      cases ptitle with
      | none => simp [paperItem] at h
      | some ttl =>
        simp only [paperItem, Except.ok.injEq] at h
        rw [← h]

theorem papersFromData_types (l : List PaperRecord) :
    ∀ items : List Item, papersFromData l = .ok items →
      ∀ i ∈ items, i.type = ItemType.Paper := by
  induction l with
  | nil =>
    intro items h i hi
    simp only [papersFromData, Except.ok.injEq] at h
    rw [← h] at hi
    cases hi
  | cons r rs ih =>
    intro items h i hi
    rw [papersFromData] at h
    cases hr : paperItem r with
    | error e => rw [hr, error_bind] at h; cases h
    | ok it =>
      rw [hr, ok_bind] at h
      cases htl : papersFromData rs with
      | error e => rw [htl, error_bind] at h; cases h
      | ok tl =>
        rw [htl, ok_bind] at h
        have hcons : it :: tl = items := Except.ok.inj h
        rw [← hcons] at hi
        rcases List.mem_cons.mp hi with hEq | hmem
        · rw [hEq]; exact paperItem_type r it hr
        · exact ih tl htl i hmem

theorem papers_types (pf : PapersFetch) :
    ∀ i ∈ get_huggingface_daily_papers pf, i.type = ItemType.Paper := by
  intro i hi
  cases pf with
  | raiseErr => cases hi
  | resp status body =>
    simp only [get_huggingface_daily_papers] at hi
    by_cases hs : status ≠ 200
    · rw [if_pos hs] at hi; cases hi
    · rw [if_neg hs] at hi
      split at hi
      · cases hi
      · split at hi
        · exact papersFromData_types _ _ (by assumption) i hi
        · cases hi

theorem feedNews_types (now : Int) (source : String) (f : FeedFetch) :
    ∀ i ∈ feedNews now source f, i.type = ItemType.News := by
  intro i hi
  cases f with
  | raiseErr => cases hi
  | parsed entries =>
    cases entries with
    | nil => cases hi
    | cons e rest =>
      obtain ⟨etitle, elink, epub⟩ := e
      cases epub with
      | none => simp [feedNews] at hi
      | some published =>
        cases elink with
        | none => simp [feedNews] at hi
        | some l' =>
          cases etitle with
          | none => simp [feedNews] at hi
          | some t' =>
            simp only [feedNews] at hi
            split at hi
            · rw [List.mem_singleton.mp hi]
            · cases hi

theorem news_types (now : Int) (feeds : List (String × FeedFetch)) :
    ∀ i ∈ get_lab_news now feeds, i.type = ItemType.News := by
  intro i hi
  unfold get_lab_news at hi
  rw [List.mem_flatMap] at hi
  obtain ⟨sf, _, hmem⟩ := hi
  exact feedNews_types now sf.1 sf.2 i hmem

theorem sortEnum_perm (l : List String) (hnd : l.Nodup) :
    sortEnum ⟨Quot.mk _ l, hnd⟩ = l.insertionSort (fun a b => a ≤ b) := rfl

theorem sortEnum_valid : ValidEnum sortEnum := by
  intro s
  rcases s with ⟨m, hnd⟩
  revert hnd
  refine Quot.inductionOn m ?_
  intro l hnd
  have hperm := l.perm_insertionSort (fun a b => a ≤ b)
  constructor
  · exact hperm.nodup_iff.mpr hnd
  · intro a
    rw [sortEnum_perm l hnd, hperm.mem_iff]
    exact Iff.rfl

theorem validEnum_length {enum : Finset String → List String} (hE : ValidEnum enum)
    (s : Finset String) : (enum s).length = s.card := by
  have h1 := (hE s).1
  have h2 : (enum s).toFinset = s := by
    ext a
    rw [List.mem_toFinset]
    exact (hE s).2 a
  calc (enum s).length = (enum s).toFinset.card := (List.toFinset_card_of_nodup h1).symm
    _ = s.card := by rw [h2]

theorem save_history_toFinset {enum : Finset String → List String} (hE : ValidEnum enum)
    (new old : Finset String) (hcap : (old ∪ new).card ≤ 1000) :
    (save_history enum new old).toFinset = old ∪ new := by
  unfold save_history pyTail
  rw [validEnum_length hE]
  have h0 : (old ∪ new).card - 1000 = 0 := by omega
  rw [h0, List.drop_zero]
  ext a
  rw [List.mem_toFinset]
  exact (hE (old ∪ new)).2 a

theorem main_eq_runWith (w : World) (hw : webhookMissing w.webhook = false)
    (hist : Finset String) (cand : List Item)
    (hl : load_history w.histFile = Except.ok hist)
    (hc : fetchCandidates w = Except.ok cand) :
    main w = Except.ok (runWith w hist cand) := by
  unfold main
  rw [hw]
  simp only [Bool.false_eq_true, if_false]
  rw [hl, ok_bind, hc, ok_bind]

theorem runWith_newItems (w : World) (hist : Finset String) (cand : List Item) :
    (runWith w hist cand).newItems = cand.filter (fun i => decide (i.id ∉ hist)) := by
  simp only [runWith]
  split <;> rfl

/-! ## Claim theorems -/

/-- C3: for every old-history set, every set of new ids and every
set-enumeration order, the list written by `save_history` has at most 1000
elements; every history write goes through `save_history`, so the
persisted history never exceeds 1000 entries. -/
theorem history_cap (enum : Finset String → List String) (new old : Finset String) :
    (save_history enum new old).length ≤ 1000 := by
  unfold save_history pyTail
  rw [List.length_drop]
  omega

/-- C4: the formatter partitions the new items by type exactly as the spec
states: each appearing section holds exactly the items of its type in
their original relative order, empty sections are omitted entirely, and
sections appear in the fixed order News, Models, Papers. -/
theorem digest_partition (items : List Item) :
    buildFields items = specSections items := by
  cases hn : (items.filter (fun i => i.type == ItemType.News)).isEmpty <;>
    cases hm : (items.filter (fun i => i.type == ItemType.Model)).isEmpty <;>
      cases hp : (items.filter (fun i => i.type == ItemType.Paper)).isEmpty <;>
        simp [buildFields, specSections, sectionIfNonempty, hn, hm, hp]

/-- C5: for a candidate model with a present last-modified timestamp, the
adapter's recency decision holds exactly when the day-difference from now
is strictly less than 2: day-difference 1 is kept, day-difference 2 or
more is excluded. -/
theorem recency_boundary (now t : Int) (m : ModelInfo) (h : m.lastModified = some t) :
    (modelIsRecent now m = true ↔ timedeltaDays (now - t) < 2)
    ∧ (timedeltaDays (now - t) = 1 → modelIsRecent now m = true)
    ∧ (2 ≤ timedeltaDays (now - t) → modelIsRecent now m = false) := by
  have hb : modelIsRecent now m = decide (timedeltaDays (now - t) < 2) := by
    simp [modelIsRecent, h]
  refine ⟨?_, ?_, ?_⟩
  · rw [hb, decide_eq_true_eq]
  · intro h1; rw [hb, decide_eq_true_eq]; omega
  · intro h2; rw [hb, decide_eq_false_iff_not]; omega

/-- Witness for C5 at day-difference exactly 1. -/
theorem recency_boundary_witness :
    modelIsRecent 172800 { modelId := "m", lastModified := some 86400, likes := 0 } = true :=
  (recency_boundary 172800 86400
    { modelId := "m", lastModified := some 86400, likes := 0 } rfl).2.1 (by decide)

/-- C6: on a popularity-sorted candidate list of at most 20 models, the
adapter returns exactly the first five recency-matching candidates in
their original order, and therefore never more than five. -/
theorem trending_first5 (now : Int) (ms : List ModelInfo)
    (h20 : ms.length ≤ 20)
    (hsorted : List.Pairwise (fun a b => b.likes ≤ a.likes) ms) :
    get_trending_models now (ModelsFetch.ok ms)
      = Except.ok (((ms.filter (modelIsRecent now)).take 5).map modelItem)
    ∧ (((ms.filter (modelIsRecent now)).take 5).map modelItem).length ≤ 5 := by
  constructor
  · simp only [get_trending_models]
    rw [collectModels_eq now ms [] (by decide)]
    simp
  · rw [List.length_map, List.length_take]
    omega

/-- Witness for C6 on a concrete sorted two-candidate list. -/
theorem trending_first5_witness :
    get_trending_models 0 (ModelsFetch.ok witnessModels)
      = Except.ok (((witnessModels.filter (modelIsRecent 0)).take 5).map modelItem)
    ∧ (((witnessModels.filter (modelIsRecent 0)).take 5).map modelItem).length ≤ 5 :=
  trending_first5 0 witnessModels (by decide) (by decide)

/-- C8: with the webhook configuration absent, the orchestrator prints one
diagnostic and stops: no fetch of any adapter, no history read or write,
no publish. -/
theorem config_absent_abort (w : World) (h : w.webhook = none) :
    main w = Except.ok { printed := ["No Webhook URL found."], historyRead := false,
                         fetched := false, newItems := [], posted := none, written := none } := by
  simp [main, webhookMissing, h, abortRun]

/-- Witness for C8. -/
theorem config_absent_abort_witness :
    main absentWebhookWorld
      = Except.ok { printed := ["No Webhook URL found."], historyRead := false,
                    fetched := false, newItems := [], posted := none, written := none } :=
  config_absent_abort absentWebhookWorld rfl

/-- C9: history load yields the empty set for a missing file and the
persisted array as a set when it parses; malformed contents raise an error
that `main` does not catch, terminating the run. -/
theorem load_history_contract (ids : List String) (w : World) (u : String)
    (hw : w.webhook = some u) (hu : u.isEmpty = false) :
    load_history HistFile.missing = Except.ok (∅ : Finset String)
    ∧ load_history (HistFile.wellFormed ids) = Except.ok ids.toFinset
    ∧ main { w with histFile := HistFile.malformed } = Except.error PyError.jsonDecodeError := by
  refine ⟨rfl, rfl, ?_⟩
  simp [main, webhookMissing, hw, hu, load_history, error_bind]

/-- Witness for C9. -/
theorem load_history_contract_witness :
    load_history HistFile.missing = Except.ok (∅ : Finset String)
    ∧ load_history (HistFile.wellFormed ["a"]) = Except.ok (["a"] : List String).toFinset
    ∧ main { smallWorld with histFile := HistFile.malformed }
        = Except.error PyError.jsonDecodeError :=
  load_history_contract ["a"] smallWorld "u" rfl rfl

/-- C10: a candidate model with a missing last-modified timestamp is
excluded by the recency check, and removing it from the candidate list
leaves the adapter output unchanged. -/
theorem missing_lastModified_excluded (now : Int) (m : ModelInfo)
    (ms1 ms2 : List ModelInfo) (h : m.lastModified = none) :
    modelIsRecent now m = false
    ∧ get_trending_models now (ModelsFetch.ok (ms1 ++ m :: ms2))
        = get_trending_models now (ModelsFetch.ok (ms1 ++ ms2)) := by
  have hfalse : modelIsRecent now m = false := by simp [modelIsRecent, h]
  refine ⟨hfalse, ?_⟩
  simp only [get_trending_models]
  rw [collectModels_eq now _ [] (by decide), collectModels_eq now _ [] (by decide)]
  have hfil : (ms1 ++ m :: ms2).filter (modelIsRecent now)
      = (ms1 ++ ms2).filter (modelIsRecent now) := by
    rw [List.filter_append, List.filter_append,
      List.filter_cons_of_neg (by simp [hfalse])]
  rw [hfil]

/-- Witness for C10. -/
theorem missing_lastModified_excluded_witness :
    modelIsRecent 0 ⟨"b", none, 5⟩ = false
    ∧ get_trending_models 0 (ModelsFetch.ok ([] ++ ⟨"b", none, 5⟩ :: []))
        = get_trending_models 0 (ModelsFetch.ok ([] ++ [])) :=
  missing_lastModified_excluded 0 ⟨"b", none, 5⟩ [] [] rfl

/-- C1 fails as stated: a network failure of the models listing call
propagates uncaught past the models adapter's boundary. -/
theorem adapters_never_raise_cex :
    get_trending_models 0 ModelsFetch.raiseErr = Except.error PyError.netError := rfl

/-- C1 amended: the papers and news adapters never raise and return lists
of fully-tagged items for every behaviour of their sources; the models
adapter does so whenever its listing call succeeds, but a raising listing
call escapes it. -/
theorem adapters_contract (pf : PapersFetch) (now : Int) (ms : List ModelInfo)
    (feeds : List (String × FeedFetch)) :
    (∀ i ∈ get_huggingface_daily_papers pf, i.type = ItemType.Paper)
    ∧ (∀ i ∈ get_lab_news now feeds, i.type = ItemType.News)
    ∧ (∃ l, get_trending_models now (ModelsFetch.ok ms) = Except.ok l
        ∧ ∀ i ∈ l, i.type = ItemType.Model) := by
  refine ⟨papers_types pf, news_types now feeds, ⟨collectModels now ms [], rfl, ?_⟩⟩
  intro i hi
  rw [collectModels_eq now ms [] (by decide)] at hi
  simp only [List.nil_append] at hi
  obtain ⟨mm, _, hEq⟩ := List.mem_map.mp hi
  rw [← hEq]
  rfl

/-- Witness for C1's amended contract at one concrete paper response. -/
theorem adapters_contract_witness :
    Item.type { id := "1", title := "T", link := "https://huggingface.co/papers/1",
                type := ItemType.Paper, likes := none } = ItemType.Paper :=
  (adapters_contract (.resp 200 (some [⟨some ⟨some "1", some "T"⟩⟩])) 0 [] []).1 _ (by decide)

/-- C7: when every candidate id is already in the loaded history, the run
publishes nothing and does not rewrite the history file. -/
theorem noop_empty_delta (w : World) (hist : Finset String) (cand : List Item) (r : RunResult)
    (hl : load_history w.histFile = Except.ok hist)
    (hc : fetchCandidates w = Except.ok cand)
    (hall : ∀ i ∈ cand, i.id ∈ hist)
    (hr : main w = Except.ok r) :
    r.posted = none ∧ r.written = none := by
  have hempty : cand.filter (fun i => decide (i.id ∉ hist)) = [] := by
    rw [List.filter_eq_nil_iff]
    intro i hi
    simp [hall i hi]
  cases hwm : webhookMissing w.webhook
  · rw [main_eq_runWith w hwm hist cand hl hc] at hr
    have hr2 : runWith w hist cand = r := Except.ok.inj hr
    rw [← hr2]
    simp only [runWith]
    rw [hempty]
    exact ⟨rfl, rfl⟩
  · have hmain : main w = Except.ok abortRun := by
      unfold main
      rw [hwm]
      rfl
    rw [hmain] at hr
    have hab : abortRun = r := Except.ok.inj hr
    rw [← hab]
    exact ⟨rfl, rfl⟩

/-- Witness for C7: history `{"a"}` and a single candidate with id `a`. -/
theorem noop_empty_delta_witness :
    RunResult.posted { printed := ["No new items to report."], historyRead := true,
                       fetched := true, newItems := [], posted := none, written := none } = none
    ∧ RunResult.written { printed := ["No new items to report."], historyRead := true,
                          fetched := true, newItems := [], posted := none, written := none }
        = none :=
  noop_empty_delta seenOnlyWorld (["a"] : List String).toFinset
    [{ id := "a", title := "A", link := "https://huggingface.co/papers/a",
       type := ItemType.Paper, likes := none }]
    { printed := ["No new items to report."], historyRead := true,
      fetched := true, newItems := [], posted := none, written := none }
    rfl (by decide) (by decide) (by decide)

/-- C2 amended: for every legitimate set-enumeration order, provided the
union of the loaded history and the new ids fits within the 1000-entry
cap (so the save truncation drops nothing), a second run over identical
adapter outputs and an untouched history file reports no new items. -/
theorem dedup_idempotent (w : World) (hE : ValidEnum w.enum)
    (hist : Finset String) (cand : List Item) (r2 : RunResult)
    (hl : load_history w.histFile = Except.ok hist)
    (hc : fetchCandidates w = Except.ok cand)
    (hcap : (hist ∪ ((cand.filter (fun i => decide (i.id ∉ hist))).map Item.id).toFinset).card
        ≤ 1000)
    (h2 : main (nextWorld w) = Except.ok r2) :
    r2.newItems = [] := by
  cases hwm : webhookMissing w.webhook
  · have hm1 : main w = Except.ok (runWith w hist cand) := main_eq_runWith w hwm hist cand hl hc
    by_cases hni : (cand.filter (fun i => decide (i.id ∉ hist))).isEmpty
    · -- nothing new on the first run: the file is untouched
      have hwritten : (runWith w hist cand).written = none := by
        simp only [runWith]
        rw [if_pos hni]
      have hnw : nextWorld w = w := by
        simp [nextWorld, hm1, hwritten, nextHistFile]
      rw [hnw, hm1] at h2
      have hr2 : runWith w hist cand = r2 := Except.ok.inj h2
      rw [← hr2, runWith_newItems]
      exact List.isEmpty_iff.mp hni
    · -- the first run saved the union of history and the new ids
      have hwritten : (runWith w hist cand).written
          = some (save_history w.enum
              (((cand.filter (fun i => decide (i.id ∉ hist))).map Item.id).toFinset) hist) := by
        simp only [runWith]
        rw [if_neg hni]
      have hnw : nextWorld w
          = { w with histFile := HistFile.wellFormed (save_history w.enum
              (((cand.filter (fun i => decide (i.id ∉ hist))).map Item.id).toFinset) hist) } := by
        simp [nextWorld, hm1, hwritten, nextHistFile]
      have hl2 : load_history (nextWorld w).histFile
          = Except.ok (hist ∪ ((cand.filter (fun i => decide (i.id ∉ hist))).map Item.id).toFinset) := by
        rw [hnw]
        show Except.ok (save_history w.enum
            (((cand.filter (fun i => decide (i.id ∉ hist))).map Item.id).toFinset) hist).toFinset = _
        rw [save_history_toFinset hE _ _ hcap]
      have hc2 : fetchCandidates (nextWorld w) = Except.ok cand := by rw [hnw]; exact hc
      have hwm2 : webhookMissing (nextWorld w).webhook = false := by rw [hnw]; exact hwm
      rw [main_eq_runWith (nextWorld w) hwm2 _ cand hl2 hc2] at h2
      have hr2 : runWith (nextWorld w)
          (hist ∪ ((cand.filter (fun i => decide (i.id ∉ hist))).map Item.id).toFinset) cand
            = r2 := Except.ok.inj h2
      rw [← hr2, runWith_newItems]
      rw [List.filter_eq_nil_iff]
      intro i hi
      simp only [decide_eq_true_eq, Decidable.not_not]
      by_cases hmem : i.id ∈ hist
      · exact Finset.mem_union_left _ hmem
      · have hin : i ∈ cand.filter (fun i => decide (i.id ∉ hist)) :=
          List.mem_filter.mpr ⟨hi, by simp [hmem]⟩
        exact Finset.mem_union_right _
          (List.mem_toFinset.mpr (List.mem_map_of_mem Item.id hin))
  · -- webhook missing: both runs abort identically
    have hm1 : main w = Except.ok abortRun := by
      unfold main
      rw [hwm]
      simp
    have hnw : nextWorld w = w := by
      simp [nextWorld, hm1, nextHistFile, abortRun]
    rw [hnw, hm1] at h2
    have hab : abortRun = r2 := Except.ok.inj h2
    rw [← hab]
    rfl

set_option maxRecDepth 8000 in
/-- Witness for C2's amended idempotence: a run whose single candidate is
already in history, immediately followed by an identical run. -/
theorem dedup_idempotent_witness :
    RunResult.newItems { printed := ["No new items to report."], historyRead := true,
                         fetched := true, newItems := [], posted := none, written := none } = [] :=
  dedup_idempotent seenOnlyWorld sortEnum_valid (["a"] : List String).toFinset
    [{ id := "a", title := "A", link := "https://huggingface.co/papers/a",
       type := ItemType.Paper, likes := none }]
    { printed := ["No new items to report."], historyRead := true,
      fetched := true, newItems := [], posted := none, written := none }
    rfl (by decide) (by decide) (by decide)

/-! ## The dedup counterexample: the 1000-entry truncation can evict a
just-added id, so the pipeline is not idempotent as claimed. -/

theorem cex_mk_length (k : Nat) :
    (String.mk (List.replicate (k + 2) 'a')).length = k + 2 := by
  show (List.replicate (k + 2) 'a').length = k + 2
  exact List.length_replicate _ _

theorem cexIds_not_x : "x" ∉ cexIds := by
  intro h
  rw [cexIds, List.mem_map] at h
  obtain ⟨k, _, hk⟩ := h
  have hlen := congrArg String.length hk
  rw [cex_mk_length] at hlen
  have h1 : ("x" : String).length = 1 := rfl
  rw [h1] at hlen
  omega

theorem cexIds_nodup : cexIds.Nodup := by
  rw [cexIds]
  refine List.Nodup.map ?_ (List.nodup_range 1000)
  intro k m hkm
  have hlen := congrArg String.length hkm
  rw [cex_mk_length, cex_mk_length] at hlen
  omega

theorem cexHist_card : cexIds.toFinset.card = 1000 := by
  rw [List.toFinset_card_of_nodup cexIds_nodup, cexIds, List.length_map, List.length_range]

theorem x_not_mem_cexHist : "x" ∉ cexIds.toFinset := by
  rw [List.mem_toFinset]
  exact cexIds_not_x

theorem cexEnum_valid : ValidEnum cexEnum := by
  intro s
  by_cases hxs : "x" ∈ s
  · constructor
    · simp only [cexEnum, if_pos hxs]
      refine List.nodup_cons.mpr ⟨?_, (sortEnum_valid (s.erase "x")).1⟩
      intro hmem
      have hx := ((sortEnum_valid (s.erase "x")).2 "x").mp hmem
      exact (Finset.mem_erase.mp hx).1 rfl
    · intro a
      simp only [cexEnum, if_pos hxs, List.mem_cons]
      constructor
      · rintro (rfl | h)
        · exact hxs
        · exact Finset.mem_of_mem_erase (((sortEnum_valid (s.erase "x")).2 a).mp h)
      · intro ha
        by_cases hax : a = "x"
        · exact Or.inl hax
        · exact Or.inr (((sortEnum_valid (s.erase "x")).2 a).mpr
            (Finset.mem_erase.mpr ⟨hax, ha⟩))
  · simp only [cexEnum, if_neg hxs]
    exact sortEnum_valid s

theorem nextWorld_fields (w : World) :
    (nextWorld w).webhook = w.webhook ∧ (nextWorld w).papersFetch = w.papersFetch
    ∧ (nextWorld w).modelsFetch = w.modelsFetch ∧ (nextWorld w).feeds = w.feeds
    ∧ (nextWorld w).now = w.now := by
  unfold nextWorld
  cases main w <;> exact ⟨rfl, rfl, rfl, rfl, rfl⟩

theorem fetchCandidates_ext (w w' : World)
    (hp : w'.papersFetch = w.papersFetch) (hm : w'.modelsFetch = w.modelsFetch)
    (hf : w'.feeds = w.feeds) (hn : w'.now = w.now) :
    fetchCandidates w' = fetchCandidates w := by
  unfold fetchCandidates
  rw [hp, hm, hf, hn]

/-- C2 fails as stated: with 1000 ids already in history, one fresh
candidate, and a legitimate set-enumeration order that lists the fresh id
first, the save truncation evicts the just-added id, and an immediately
repeated run with identical adapter outputs and an untouched history file
reports the same item as new again. -/
theorem dedup_idempotent_cex :
    ValidEnum cexEnum
    ∧ (main cexWorld).map RunResult.newItems = Except.ok [cexItem]
    ∧ (main (nextWorld cexWorld)).map RunResult.newItems = Except.ok [cexItem] := by
  have hfilter1 : [cexItem].filter (fun i => decide (i.id ∉ cexIds.toFinset)) = [cexItem] := by
    simp only [List.filter_cons, List.filter_nil]
    rw [decide_eq_true (show cexItem.id ∉ cexIds.toFinset from x_not_mem_cexHist)]
    simp
  have hc : fetchCandidates cexWorld = Except.ok [cexItem] := by decide
  have hwm : webhookMissing cexWorld.webhook = false := rfl
  have hl : load_history cexWorld.histFile = Except.ok cexIds.toFinset := rfl
  have hmain1 : main cexWorld = Except.ok (runWith cexWorld cexIds.toFinset [cexItem]) :=
    main_eq_runWith cexWorld hwm _ _ hl hc
  have hxu : "x" ∈ cexIds.toFinset ∪ ([cexItem].map Item.id).toFinset := by
    refine Finset.mem_union_right _ ?_
    rw [List.mem_toFinset]
    simp [cexItem]
  have herase : (cexIds.toFinset ∪ ([cexItem].map Item.id).toFinset).erase "x"
      = cexIds.toFinset := by
    rw [Finset.erase_union_distrib, Finset.erase_eq_of_not_mem x_not_mem_cexHist]
    have h2 : (([cexItem].map Item.id).toFinset).erase "x" = ∅ := by decide
    rw [h2, Finset.union_empty]
  have hlen : (sortEnum cexIds.toFinset).length = 1000 := by
    rw [validEnum_length sortEnum_valid, cexHist_card]
  have hsaved : save_history cexEnum (([cexItem].map Item.id).toFinset) cexIds.toFinset
      = sortEnum cexIds.toFinset := by
    unfold save_history pyTail
    rw [show cexEnum (cexIds.toFinset ∪ ([cexItem].map Item.id).toFinset)
        = "x" :: sortEnum ((cexIds.toFinset ∪ ([cexItem].map Item.id).toFinset).erase "x")
       from by simp only [cexEnum, if_pos hxu]]
    rw [herase, List.length_cons, hlen]
    rw [show 1000 + 1 - 1000 = 1 from rfl]
    rw [List.drop_one, List.tail_cons]
  have hwritten : (runWith cexWorld cexIds.toFinset [cexItem]).written
      = some (sortEnum cexIds.toFinset) := by
    simp only [runWith]
    rw [hfilter1]
    rw [if_neg (by simp)]
    show some (save_history cexEnum (([cexItem].map Item.id).toFinset) cexIds.toFinset) = _
    rw [hsaved]
  have hnwh : (nextWorld cexWorld).histFile
      = HistFile.wellFormed (sortEnum cexIds.toFinset) := by
    simp only [nextWorld, hmain1]
    rw [hwritten]
    rfl
  have hl2 : load_history (nextWorld cexWorld).histFile
      = Except.ok (sortEnum cexIds.toFinset).toFinset := by
    rw [hnwh]
    rfl
  have hsortFin : (sortEnum cexIds.toFinset).toFinset = cexIds.toFinset := by
    ext a
    rw [List.mem_toFinset]
    exact (sortEnum_valid cexIds.toFinset).2 a
  obtain ⟨hfw, hfp, hfm, hff, hfn⟩ := nextWorld_fields cexWorld
  have hc2 : fetchCandidates (nextWorld cexWorld) = Except.ok [cexItem] :=
    (fetchCandidates_ext cexWorld (nextWorld cexWorld) hfp hfm hff hfn).trans hc
  have hwm2 : webhookMissing (nextWorld cexWorld).webhook = false := by
    rw [hfw]
    rfl
  have hmain2 : main (nextWorld cexWorld)
      = Except.ok (runWith (nextWorld cexWorld) (sortEnum cexIds.toFinset).toFinset [cexItem]) :=
    main_eq_runWith _ hwm2 _ _ hl2 hc2
  refine ⟨cexEnum_valid, ?_, ?_⟩
  · rw [hmain1]
    show Except.ok ((runWith cexWorld cexIds.toFinset [cexItem]).newItems) = _
    rw [runWith_newItems, hfilter1]
  · rw [hmain2]
    show Except.ok ((runWith (nextWorld cexWorld)
        (sortEnum cexIds.toFinset).toFinset [cexItem]).newItems) = _
    rw [runWith_newItems, hsortFin, hfilter1]

end DailyBriefing
